import Mathlib

/-!
Verification of the template-matching core of the `rust_test_case` repository.

The repository contains two parallel implementations of the matching engine:
* `src/auto_gui.rs` — `AutoGui::find_image_on_screen`, an iterative
  find-max / accept-or-reject / suppress loop over a correlation surface, and
* `src/matcher.rs` — `ImageMatcher::start_matching`, a raster scan of the
  correlation surface followed by a stable descending sort.

This file gives a shallow embedding of both.  Conventions:
* image pixels and correlation scores (`f32`/`f64` in the source) are modelled
  as exact rationals (`ℚ`);
* `u32` values are modelled as `Nat`; where the source's wrap-around behaviour
  on under/overflow is essential (the subtractions in
  `ImageMatchFilter::need_filter`) it is modelled explicitly with `% 2^32`,
  matching release-mode Rust semantics (debug mode would panic there);
* external OpenCV routines are parameters of the embedding:
  `match_template` (the correlation primitive) is an arbitrary fallible
  function producing a `Surface`; `cvt_color`/`equalize_hist`/`gaussian_blur`
  and the resize resampling kernel are arbitrary functions on pixel content
  that, as the real routines do, preserve image dimensions (enforced by
  construction);
* asset loading and PNG decoding are outside the embedding: templates and
  targets enter as already-decoded image buffers;
* the unbounded `loop` of `find_image_on_screen` is modelled with explicit
  fuel counting suppression iterations; `none` means the loop did not reach
  its terminal condition within the given number of iterations.
-/

/-- A decoded image buffer: width, height and (grayscale-abstracted) pixel
content.  Out-of-range coordinates return junk values that no embedded
operation depends on. -/
structure Img where
  w : Nat
  h : Nat
  pix : Nat → Nat → ℚ

/-- A correlation surface: a `w × h` grid of similarity scores. -/
structure Surface where
  w : Nat
  h : Nat
  data : Nat → Nat → ℚ

/-- `FindImageRegion` from auto_gui.rs (construction asserts positive size). -/
structure FindImageRegion where
  left : Nat
  top : Nat
  width : Nat
  height : Nat
deriving DecidableEq

/-- `FindImageResult` from auto_gui.rs. -/
structure FindImageResult where
  left : Nat
  top : Nat
  precision : ℚ
deriving DecidableEq

/-- `FindImageResults` from auto_gui.rs. -/
structure FindImageResults where
  width : Nat
  height : Nat
  list : List FindImageResult
deriving DecidableEq

/-- `FindImageResultFilter` from auto_gui.rs. -/
structure FindImageResultFilter where
  x_delta : Nat
  y_delta : Nat
deriving DecidableEq

/-- `ImageMatchRegion` from matcher.rs. -/
structure ImageMatchRegion where
  left : Nat
  top : Nat
  width : Nat
  height : Nat
deriving DecidableEq

/-- `ImageMatchResult` from matcher.rs. -/
structure ImageMatchResult where
  left : Nat
  top : Nat
  precision : ℚ
deriving DecidableEq

/-- `ImageMatchResults` from matcher.rs. -/
structure ImageMatchResults where
  width : Nat
  height : Nat
  list : List ImageMatchResult
deriving DecidableEq

/-- `ImageMatchFilter` from matcher.rs. -/
structure ImageMatchFilter where
  x_delta : Nat
  y_delta : Nat
deriving DecidableEq

/-- The `ImageMatcher` struct from matcher.rs: the preprocessed template plus
configuration recorded at construction time. -/
structure ImageMatcher where
  template : Img
  use_gray : Bool
  width : Nat
  height : Nat

/-- Wrapping `u32` subtraction (release-mode Rust `a - b`). -/
def u32Sub (a b : Nat) : Nat :=
  (a % 4294967296 + (4294967296 - b % 4294967296)) % 4294967296

/-- Wrapping `u32` addition (release-mode Rust `a + b`). -/
def u32Add (a b : Nat) : Nat :=
  (a + b) % 4294967296

/-- Reinterpret a `u32` bit pattern as an `i32` (Rust `as i32`): the value is
reduced mod `2^32` and values at or above `2^31` become negative. -/
def u32ToI32 (a : Nat) : Int :=
  if a % 4294967296 < 2147483648 then ((a % 4294967296 : Nat) : Int)
  else ((a % 4294967296 : Nat) : Int) - 4294967296

/-- Wrapping `i32` arithmetic (release-mode Rust): reduce into
`[-2^31, 2^31)`. -/
def i32Wrap (a : Int) : Int :=
  (a + 2147483648) % 4294967296 - 2147483648

/-- `FindImageResultFilter::need_filter` (auto_gui.rs lines 60-75).
`info` is the candidate `(x, y, score)`.  The lower bounds use
`saturating_sub`, which is exactly `Nat` subtraction; the upper-bound
additions cannot wrap for the surface-bounded coordinates the loop feeds in,
so they are modelled as plain `Nat` addition. -/
def FindImageResultFilter.need_filter (f : FindImageResultFilter)
    (result : FindImageResult) (info : Nat × Nat × ℚ) : Bool :=
  if info.1 < result.left - f.x_delta then false
  else if info.1 > result.left + f.x_delta then false
  else if info.2.1 < result.top - f.y_delta then false
  else if info.2.1 > result.top + f.y_delta then false
  else true

/-- `ImageMatchFilter::need_filter` (matcher.rs lines 86-105).  The
subtractions `result.left - x_delta` / `result.top - y_delta` are plain `u32`
subtractions in the source and wrap around on underflow (release mode), which
is modelled faithfully with `u32Sub`. -/
def ImageMatchFilter.need_filter (f : ImageMatchFilter)
    (x y : Nat) (result : ImageMatchResult) : Bool :=
  if x < u32Sub result.left f.x_delta then false
  else if x > u32Add result.left f.x_delta then false
  else if y < u32Sub result.top f.y_delta then false
  else if y > u32Add result.top f.y_delta then false
  else true

/-- Row-major list of all cell coordinates `(x, y)` of a surface, in the
order OpenCV's `min_max_loc` scans them. -/
def Surface.cellList (s : Surface) : List (Nat × Nat) :=
  (List.range s.h).flatMap fun y => (List.range s.w).map fun x => (x, y)

/-- Fold step tracking the running maximum and the first location attaining
it (OpenCV `minMaxLoc` updates only on a strictly greater value). -/
def maxStep (s : Surface) (acc : ℚ × Nat × Nat) (c : Nat × Nat) : ℚ × Nat × Nat :=
  if acc.1 < s.data c.1 c.2 then (s.data c.1 c.2, c.1, c.2) else acc

/-- The maximum part of `core::min_max_loc`: the greatest score in the
surface together with the first (row-major) location attaining it.  (The
source also requests the minimum, which it never uses.) -/
def min_max_loc (s : Surface) : ℚ × Nat × Nat :=
  s.cellList.foldl (maxStep s) (s.data 0 0, 0, 0)

/-- An OpenCV `core::Rect` (signed coordinates, as in the source). -/
structure Rect where
  x : Int
  y : Int
  width : Int
  height : Int

/-- Membership of a cell in a filled rectangle:
`imgproc::rectangle(..., thickness = -1)` fills exactly the cells
`x ≤ cx < x + width`, `y ≤ cy < y + height`. -/
def Rect.covers (r : Rect) (cx cy : Nat) : Prop :=
  r.x ≤ (cx : Int) ∧ (cx : Int) < r.x + r.width ∧
  r.y ≤ (cy : Int) ∧ (cy : Int) < r.y + r.height

instance (r : Rect) (cx cy : Nat) : Decidable (r.covers cx cy) := by
  unfold Rect.covers
  infer_instance

/-- `AutoGui::clamp_rect` (auto_gui.rs lines 117-123). -/
def AutoGui.clamp_rect (r : Rect) (cols rows : Int) : Rect :=
  let x := min (max r.x 0) (cols - 1)
  let y := min (max r.y 0) (rows - 1)
  let w := min (max r.width 1) (cols - x)
  let h := min (max r.height 1) (rows - y)
  ⟨x, y, w, h⟩

/-- The suppression rectangle built in auto_gui.rs lines 259-264 (before
clamping), with the source's integer semantics modelled faithfully: the
origin is `(max_loc - (delta as i32)).max(0)` — a `u32 -> i32` bit
reinterpretation followed by a wrapping `i32` subtraction (release mode) —
and the size is `(template as u32 + delta * 2) as i32` — a wrapping `u32`
multiply/add whose bit pattern is then reinterpreted as `i32`, so oversized
deltas (from `2^30` up) produce a negative width/height that the clamp then
turns into a 1-cell extent. -/
def suppressRect (tplW tplH : Nat) (f : FindImageResultFilter) (mx my : Nat) : Rect :=
  ⟨max (i32Wrap ((mx : Int) - u32ToI32 f.x_delta)) 0,
   max (i32Wrap ((my : Int) - u32ToI32 f.y_delta)) 0,
   u32ToI32 (tplW + f.x_delta * 2),
   u32ToI32 (tplH + f.y_delta * 2)⟩

/-- Overwrite every cell covered by `r` with `0`
(`imgproc::rectangle(&mut result, r, Scalar::all(0.0), -1, ...)`). -/
def fillRect (s : Surface) (r : Rect) : Surface :=
  ⟨s.w, s.h, fun x y => if r.covers x y then 0 else s.data x y⟩

/-- One iteration of the `loop` in `find_image_on_screen` (auto_gui.rs lines
212-274), minus the termination test: locate the maximum, accept the
candidate unless it collides with an already-accepted result, then
unconditionally suppress the clamped rectangle around the maximum. -/
def autoGuiStep (tplW tplH : Nat) (f : FindImageResultFilter)
    (st : Surface × List FindImageResult) : Surface × List FindImageResult :=
  let m := min_max_loc st.1
  let left := m.2.1
  let top := m.2.2
  let candidate : Nat × Nat × ℚ := (left, top, m.1)
  let list :=
    if st.2.any fun x => f.need_filter x candidate then st.2
    else st.2 ++ [⟨left, top, m.1⟩]
  let r := AutoGui.clamp_rect (suppressRect tplW tplH f left top)
    (st.1.w : Int) (st.1.h : Int)
  (fillRect st.1 r, list)

/-- The `loop` of `find_image_on_screen` with explicit fuel: the break test
(`max_val < precision`) is checked before any fuel is consumed, so `fuel`
bounds the number of suppression iterations; `none` means the loop did not
terminate within `fuel` iterations. -/
def autoGuiLoop (tplW tplH : Nat) (f : FindImageResultFilter) (prec : ℚ)
    (fuel : Nat) (st : Surface × List FindImageResult) :
    Option (List FindImageResult) :=
  if (min_max_loc st.1).1 < prec then some st.2
  else
    match fuel with
    | 0 => none
    | Nat.succ fuel' =>
      autoGuiLoop tplW tplH f prec fuel' (autoGuiStep tplW tplH f st)

/-- Crop a buffer to a sub-rectangle (`Mat::roi` + `try_clone`): the result
owns `width × height` pixels read at offset `(left, top)`. -/
def cropImg (img : Img) (left top width height : Nat) : Img :=
  ⟨width, height, fun x y => img.pix (left + x) (top + y)⟩

/-- Apply an external dimension-preserving pixel operation (the grayscale /
equalize-histogram / Gaussian-blur chain, or grayscale alone).  OpenCV's
`cvt_color`, `equalize_hist` and `gaussian_blur` all preserve dimensions, so
the abstraction fixes the dimensions and lets the content be arbitrary. -/
def applyPrep (prep : Img → Nat → Nat → ℚ) (img : Img) : Img :=
  ⟨img.w, img.h, prep img⟩

/-- Rust `f64::round`: round half away from zero. -/
def rustRound (q : ℚ) : Int :=
  if 0 ≤ q then ⌊q + 1/2⌋ else -⌊1/2 - q⌋

/-- The template-resize step of `find_image_on_screen` (auto_gui.rs lines
138-146): given a requested width, the new height is
`round(rows * (tw / cols))` computed in `f64` (exact in the `ℚ` model), and
the resampled content is produced by the external interpolation kernel
`resample`. -/
def AutoGui.resize_template (resample : Img → Nat → Nat → Nat → Nat → ℚ)
    (img : Img) (template_width : Option Nat) : Img :=
  match template_width with
  | none => img
  | some tw =>
    let ratio : ℚ := (tw : ℚ) / (img.w : ℚ)
    let new_h := (rustRound ((img.h : ℚ) * ratio)).toNat
    ⟨tw, new_h, resample img tw new_h⟩

/-- The region crop of `find_image_on_screen` (auto_gui.rs lines 155-159):
`Mat::roi` fails when the rectangle is not contained in the buffer. -/
def AutoGui.crop_screen (img : Img) (region : Option FindImageRegion) :
    Except String Img :=
  match region with
  | none => .ok img
  | some r =>
    if r.left + r.width ≤ img.w ∧ r.top + r.height ≤ img.h then
      .ok (cropImg img r.left r.top r.width r.height)
    else .error "roi out of bounds"

/-- `AutoGui::find_image_on_screen` (auto_gui.rs lines 125-281), starting
from the already-decoded template and screen buffers (asset loading and PNG
decoding are external).  `cor` is the external correlation primitive
(`imgproc::match_template` with `TM_CCOEFF_NORMED`, called as
`match_template(&screen_proc, &template_proc, ...)`); `prep` is the external
grayscale + equalize + blur chain applied to both buffers; `resample` the
external resize interpolation.  Debug file dumps are omitted. -/
def AutoGui.find_image_on_screen
    (cor : Img → Img → Except String Surface)
    (prep : Img → Nat → Nat → ℚ)
    (resample : Img → Nat → Nat → Nat → Nat → ℚ)
    (template screen : Img) (precision : ℚ)
    (region : Option FindImageRegion) (template_width : Option Nat)
    (result_filter : Option FindImageResultFilter) (fuel : Nat) :
    Except String (Option FindImageResults) :=
  let template_color := AutoGui.resize_template resample template template_width
  match AutoGui.crop_screen screen region with
  | .error e => .error e
  | .ok screen_color =>
    let screen_proc := applyPrep prep screen_color
    let template_proc := applyPrep prep template_color
    if template_proc.w > screen_proc.w ∨ template_proc.h > screen_proc.h then
      .ok (some ⟨template_proc.w, template_proc.h, []⟩)
    else
      match cor screen_proc template_proc with
      | .error e => .error e
      | .ok result =>
        let f := result_filter.getD ⟨5, 5⟩
        match autoGuiLoop template_proc.w template_proc.h f precision fuel
            (result, []) with
        | none => .ok none
        | some list => .ok (some ⟨template_proc.w, template_proc.h, list⟩)

/-- The `(width, height)` recorded by `ImageMatcher::new` (matcher.rs lines
161-166): when a resize width is requested the code executes `w = width;
h = w * h / w;` in `u32` arithmetic (the multiplication wraps in release
mode, the division truncates). -/
def ImageMatcher.new_dims (w0 h0 : Nat) (width : Option Nat) : Nat × Nat :=
  match width with
  | none => (w0, h0)
  | some width => (width, width * h0 % 4294967296 / width)

/-- `ImageMatcher::gray_mat` applied through the external `cvt_color`
content transform `gray` (dimension preserving): identity unless
`use_gray`. -/
def ImageMatcher.gray_mat (gray : Img → Nat → Nat → ℚ) (mat : Img)
    (use_gray : Bool) : Img :=
  if use_gray then applyPrep gray mat else mat

/-- `ImageMatcher::crop_mat` (matcher.rs lines 184-199). -/
def ImageMatcher.crop_mat (mat : Img) (region : Option ImageMatchRegion) :
    Except String Img :=
  match region with
  | none => .ok mat
  | some r =>
    if r.left + r.width ≤ mat.w ∧ r.top + r.height ≤ mat.h then
      .ok (cropImg mat r.left r.top r.width r.height)
    else .error "roi out of bounds"

/-- `ImageMatcher::need_filter` (matcher.rs lines 200-213): true iff the
candidate collides with some already-accepted result. -/
def ImageMatcher.need_filter_any (x y : Nat) (list : List ImageMatchResult)
    (filter : ImageMatchFilter) : Bool :=
  list.any fun result => filter.need_filter x y result

/-- The raster scan of `start_matching` (matcher.rs lines 250-272): visit
every surface cell in row-major order; skip it if it collides with an
already-accepted result or its score is below the threshold, otherwise
append it.  (`at_2d` never fails on the in-range indices the loops
produce.) -/
def matcherScan (surf : Surface) (precision : ℚ) (filter : ImageMatchFilter) :
    List ImageMatchResult :=
  (List.range surf.h).foldl
    (fun results y =>
      (List.range surf.w).foldl
        (fun results x =>
          if ImageMatcher.need_filter_any x y results filter then results
          else if surf.data x y < precision then results
          else results ++ [⟨x, y, surf.data x y⟩])
        results)
    []

/-- The final sort of `start_matching` (matcher.rs lines 275-279):
`sort_by(|a, b| b.precision.partial_cmp(&a.precision).unwrap_or(Equal))` is a
stable sort by descending precision; on the total order of `ℚ` any stable
sort produces the same list, modelled here by a stable insertion sort. -/
def ImageMatcher.sort_results (l : List ImageMatchResult) : List ImageMatchResult :=
  List.insertionSort (fun a b => b.precision ≤ a.precision) l

/-- `ImageMatcher::start_matching` (matcher.rs lines 215-282).  `cor` is the
external correlation primitive, called as
`match_template(&target_mat, &self.template, ...)`; `gray` the external
`cvt_color` content transform. -/
def ImageMatcher.start_matching
    (cor : Img → Img → Except String Surface)
    (gray : Img → Nat → Nat → ℚ)
    (m : ImageMatcher) (target_image : Img) (precision : ℚ)
    (region : Option ImageMatchRegion) (filter : Option ImageMatchFilter) :
    Except String ImageMatchResults :=
  let wh : Nat × Nat :=
    match region with
    | some r => (r.width, r.height)
    | none => (target_image.w, target_image.h)
  match ImageMatcher.crop_mat target_image region with
  | .error e => .error e
  | .ok target_mat =>
    let target_mat := ImageMatcher.gray_mat gray target_mat m.use_gray
    match cor target_mat m.template with
    | .error e => .error e
    | .ok result_mat =>
      let f := filter.getD ⟨5, 5⟩
      let results := matcherScan result_mat precision f
      .ok ⟨wh.1, wh.2, ImageMatcher.sort_results results⟩

/-- Number of surface cells whose score is at least `prec` (the measure that
each suppression iteration strictly decreases when `prec > 0`). -/
def Surface.hotCount (s : Surface) (prec : ℚ) : Nat :=
  s.cellList.countP fun c => decide (prec ≤ s.data c.1 c.2)

/-! Concrete instances used by counterexamples and witnesses. -/

/-- A correlation primitive that fails, as OpenCV's `match_template` does
when the template exceeds the searched image (its size assertion throws and
the opencv-rust binding surfaces it as `Err`). -/
def corFail : Img → Img → Except String Surface :=
  fun _ _ => .error "matchTemplate size assertion"

/-- A correlation primitive honouring the dimension contract and returning an
all-zero surface. -/
def corContractZero : Img → Img → Except String Surface :=
  fun t tpl => .ok ⟨t.w - tpl.w + 1, t.h - tpl.h + 1, fun _ _ => 0⟩

/-- A correlation primitive honouring the dimension contract and returning a
uniform surface of score `1`. -/
def corOnes : Img → Img → Except String Surface :=
  fun t tpl => .ok ⟨t.w - tpl.w + 1, t.h - tpl.h + 1, fun _ _ => 1⟩

/-- A correlation primitive honouring the dimension contract whose surface
scores `3` at column 0, `2` at column 2 and `0` elsewhere. -/
def corPeaks : Img → Img → Except String Surface :=
  fun t tpl => .ok ⟨t.w - tpl.w + 1, t.h - tpl.h + 1,
    fun x _ => if x = 0 then 3 else if x = 2 then 2 else 0⟩

/-- A correlation primitive honouring the dimension contract whose surface
scores `2` at column 0 and `3` elsewhere (so the raster scan discovers an
ascending pair). -/
def corAsc : Img → Img → Except String Surface :=
  fun t tpl => .ok ⟨t.w - tpl.w + 1, t.h - tpl.h + 1,
    fun x _ => if x = 0 then 2 else 3⟩

/-- Identity content transform standing in for the preprocessing chain in
concrete runs. -/
def prepId : Img → Nat → Nat → ℚ := fun i => i.pix

/-- Zero resampling kernel standing in for the resize interpolation in
concrete runs. -/
def resampleZero : Img → Nat → Nat → Nat → Nat → ℚ := fun _ _ _ _ _ => 0

/-- 1×1 template of value 1. -/
def tpl11 : Img := ⟨1, 1, fun _ _ => 1⟩

/-- 2×2 template of value 1. -/
def tpl22 : Img := ⟨2, 2, fun _ _ => 1⟩

/-- 1×1 target of value 0. -/
def tgt11 : Img := ⟨1, 1, fun _ _ => 0⟩

/-- 2×1 target of value 0. -/
def tgt21 : Img := ⟨2, 1, fun _ _ => 0⟩

/-- 3×2 target of value 0. -/
def tgt32 : Img := ⟨3, 2, fun _ _ => 0⟩

/-- 3×1 target of value 0. -/
def tgt31 : Img := ⟨3, 1, fun _ _ => 0⟩

/-- 6×6 target of value 0. -/
def tgt66 : Img := ⟨6, 6, fun _ _ => 0⟩

/-- Matcher built from the 1×1 template, no grayscale. -/
def m11 : ImageMatcher := ⟨tpl11, false, 1, 1⟩

/-- Matcher built from the 2×2 template, no grayscale. -/
def m22 : ImageMatcher := ⟨tpl22, false, 2, 2⟩

/-- 10×1 surface scoring 1 at columns 0 and 5 and 0 elsewhere (used to show
the suppression arithmetic really wraps for oversized deltas). -/
def surfTwoPeaks : Surface :=
  ⟨10, 1, fun x _ => if x = 0 then 1 else if x = 5 then 1 else 0⟩

/-! Basic facts about the surface scan. -/

/-- Cell-list membership is exactly in-bounds coordinates. -/
theorem Surface.mem_cellList {s : Surface} {c : Nat × Nat} :
    c ∈ s.cellList ↔ c.1 < s.w ∧ c.2 < s.h := by
  rcases c with ⟨x, y⟩
  simp only [Surface.cellList, List.mem_flatMap, List.mem_map, List.mem_range,
    Prod.mk.injEq]
  constructor
  · rintro ⟨y', hy', x', hx', hx, hy⟩
    subst hx
    subst hy
    exact ⟨hx', hy'⟩
  · rintro ⟨hx, hy⟩
    exact ⟨y, hy, x, hx, rfl, rfl⟩

/-- The running maximum only grows along the fold. -/
theorem foldl_maxStep_init_le (s : Surface) (cells : List (Nat × Nat)) :
    ∀ init : ℚ × Nat × Nat, init.1 ≤ (cells.foldl (maxStep s) init).1 := by
  induction cells with
  | nil => intro init; exact le_refl _
  | cons c cs ih =>
    intro init
    refine le_trans ?_ (ih (maxStep s init c))
    unfold maxStep
    split
    · exact le_of_lt (by assumption)
    · exact le_refl _

/-- Every scanned cell is bounded by the final running maximum. -/
theorem foldl_maxStep_le (s : Surface) (cells : List (Nat × Nat)) :
    ∀ (init : ℚ × Nat × Nat), ∀ c ∈ cells,
      s.data c.1 c.2 ≤ (cells.foldl (maxStep s) init).1 := by
  induction cells with
  | nil => intro init c hc; cases hc
  | cons d cs ih =>
    intro init c hc
    rcases List.mem_cons.mp hc with h | h
    · subst h
      refine le_trans ?_ (foldl_maxStep_init_le s cs (maxStep s init c))
      unfold maxStep
      split
      · exact le_refl _
      · exact le_of_not_lt (by assumption)
    · exact ih (maxStep s init d) c h

/-- The fold result is the initial accumulator or one of the scanned cells. -/
theorem foldl_maxStep_spec (s : Surface) (cells : List (Nat × Nat)) :
    ∀ init : ℚ × Nat × Nat,
      cells.foldl (maxStep s) init = init ∨
      ∃ c ∈ cells, cells.foldl (maxStep s) init = (s.data c.1 c.2, c.1, c.2) := by
  induction cells with
  | nil => intro init; exact Or.inl rfl
  | cons c cs ih =>
    intro init
    rcases ih (maxStep s init c) with h | ⟨d, hd, h⟩
    · rw [List.foldl_cons, h]
      unfold maxStep
      split
      · exact Or.inr ⟨c, List.mem_cons_self c cs, rfl⟩
      · exact Or.inl rfl
    · exact Or.inr ⟨d, List.mem_cons_of_mem c hd, by rw [List.foldl_cons, h]⟩

/-- `min_max_loc` dominates every in-bounds cell. -/
theorem min_max_loc_ge (s : Surface) {x y : Nat} (hx : x < s.w) (hy : y < s.h) :
    s.data x y ≤ (min_max_loc s).1 :=
  foldl_maxStep_le s s.cellList _ (x, y) (Surface.mem_cellList.mpr ⟨hx, hy⟩)

/-- On a nonempty surface, `min_max_loc` returns in-bounds coordinates that
attain the returned maximum. -/
theorem min_max_loc_spec (s : Surface) (hw : 1 ≤ s.w) (hh : 1 ≤ s.h) :
    (min_max_loc s).2.1 < s.w ∧ (min_max_loc s).2.2 < s.h ∧
      s.data (min_max_loc s).2.1 (min_max_loc s).2.2 = (min_max_loc s).1 := by
  rcases foldl_maxStep_spec s s.cellList (s.data 0 0, 0, 0) with h | ⟨c, hc, h⟩
  · unfold min_max_loc
    rw [h]
    exact ⟨hw, hh, rfl⟩
  · unfold min_max_loc
    rw [h]
    rcases Surface.mem_cellList.mp hc with ⟨h1, h2⟩
    exact ⟨h1, h2, rfl⟩

/-! The clamped suppression rectangle covers the maximum location as long as
the source's `u32`/`i32` rectangle arithmetic does not wrap. -/

/-- Below `2^31` the `u32 -> i32` reinterpretation is the identity. -/
theorem u32ToI32_of_lt {a : Nat} (ha : a < 2147483648) : u32ToI32 a = (a : Int) := by
  unfold u32ToI32
  rw [Nat.mod_eq_of_lt (by omega)]
  rw [if_pos ha]

/-- Within `i32` range the wrap is the identity. -/
theorem i32Wrap_of_bounds {a : Int} (h1 : -2147483648 ≤ a) (h2 : a < 2147483648) :
    i32Wrap a = a := by
  unfold i32Wrap
  omega

/-- The rectangle built from `suppressRect` and clamped by `clamp_rect` to
the surface bounds covers the cell it was centred on, whenever that cell is
in bounds, the surface fits in `i32` coordinates, and
`template + 2·delta < 2^31` on both axes so that none of the `u32`/`i32`
operations in auto_gui.rs 259-264 wraps (the default deltas `(5,5)` on any
real template satisfy this; an oversized delta such as `2^30` does not, and
then the real rectangle degenerates — see
`autoGuiLoop_diverges_on_wrapped_delta`). -/
theorem clamp_suppress_covers (tplW tplH : Nat) (f : FindImageResultFilter)
    {mx my w h : Nat} (hx : mx < w) (hy : my < h)
    (hwb : w ≤ 2147483648) (hhb : h ≤ 2147483648)
    (hxw : tplW + f.x_delta * 2 < 2147483648)
    (hyh : tplH + f.y_delta * 2 < 2147483648) :
    (AutoGui.clamp_rect (suppressRect tplW tplH f mx my) (w : Int) (h : Int)).covers mx my := by
  have hxd : f.x_delta < 2147483648 := by omega
  have hyd : f.y_delta < 2147483648 := by omega
  have e1 : u32ToI32 f.x_delta = (f.x_delta : Int) := u32ToI32_of_lt hxd
  have e2 : u32ToI32 f.y_delta = (f.y_delta : Int) := u32ToI32_of_lt hyd
  have e3 : u32ToI32 (tplW + f.x_delta * 2) = ((tplW + f.x_delta * 2 : Nat) : Int) :=
    u32ToI32_of_lt hxw
  have e4 : u32ToI32 (tplH + f.y_delta * 2) = ((tplH + f.y_delta * 2 : Nat) : Int) :=
    u32ToI32_of_lt hyh
  have e5 : i32Wrap ((mx : Int) - (f.x_delta : Int)) = (mx : Int) - (f.x_delta : Int) := by
    apply i32Wrap_of_bounds <;> omega
  have e6 : i32Wrap ((my : Int) - (f.y_delta : Int)) = (my : Int) - (f.y_delta : Int) := by
    apply i32Wrap_of_bounds <;> omega
  unfold AutoGui.clamp_rect suppressRect Rect.covers
  dsimp only
  rw [e1, e2, e3, e4]
  rw [e5, e6]
  push_cast
  omega

/-- Dimensions are unchanged by a suppression step. -/
theorem autoGuiStep_fst_w (tplW tplH : Nat) (f : FindImageResultFilter)
    (st : Surface × List FindImageResult) :
    (autoGuiStep tplW tplH f st).1.w = st.1.w := rfl

/-- Dimensions are unchanged by a suppression step. -/
theorem autoGuiStep_fst_h (tplW tplH : Nat) (f : FindImageResultFilter)
    (st : Surface × List FindImageResult) :
    (autoGuiStep tplW tplH f st).1.h = st.1.h := rfl

/-- After a wrap-free suppression step the maximum cell of the previous
surface holds score `0`. -/
theorem autoGuiStep_zeroes_max (tplW tplH : Nat) (f : FindImageResultFilter)
    (s : Surface) (L : List FindImageResult) (hw : 1 ≤ s.w) (hh : 1 ≤ s.h)
    (hwb : s.w ≤ 2147483648) (hhb : s.h ≤ 2147483648)
    (hxw : tplW + f.x_delta * 2 < 2147483648)
    (hyh : tplH + f.y_delta * 2 < 2147483648) :
    (autoGuiStep tplW tplH f (s, L)).1.data (min_max_loc s).2.1 (min_max_loc s).2.2 = 0 := by
  obtain ⟨h1, h2, _⟩ := min_max_loc_spec s hw hh
  show (fillRect s _).data _ _ = 0
  unfold fillRect
  dsimp only
  rw [if_pos (clamp_suppress_covers tplW tplH f h1 h2 hwb hhb hxw hyh)]

/-- The clamped rectangle always covers its own origin cell, which is in
bounds, whatever the unclamped rectangle was: the clamp forces
`0 ≤ x ≤ cols-1` and a width of at least 1 within bounds (and likewise
vertically). -/
theorem clamp_rect_covers_origin (r0 : Rect) (cols rows : Int)
    (hc : 1 ≤ cols) (hr : 1 ≤ rows) :
    0 ≤ (AutoGui.clamp_rect r0 cols rows).x ∧
    (AutoGui.clamp_rect r0 cols rows).x < cols ∧
    0 ≤ (AutoGui.clamp_rect r0 cols rows).y ∧
    (AutoGui.clamp_rect r0 cols rows).y < rows ∧
    (AutoGui.clamp_rect r0 cols rows).covers
      (AutoGui.clamp_rect r0 cols rows).x.toNat
      (AutoGui.clamp_rect r0 cols rows).y.toNat := by
  unfold AutoGui.clamp_rect Rect.covers
  dsimp only
  omega

/-- Every suppression step zeroes at least one in-bounds cell (the clamped
rectangle's origin), regardless of any wrapping in the rectangle
arithmetic — the suppression rectangle's origin is `max(..., 0) ≥ 0`. -/
theorem autoGuiStep_zeroes_some (tplW tplH : Nat) (f : FindImageResultFilter)
    (s : Surface) (L : List FindImageResult) (hw : 1 ≤ s.w) (hh : 1 ≤ s.h) :
    ∃ x y, x < s.w ∧ y < s.h ∧ (autoGuiStep tplW tplH f (s, L)).1.data x y = 0 := by
  obtain ⟨p1, p2, p3, p4, p5⟩ := clamp_rect_covers_origin
    (suppressRect tplW tplH f (min_max_loc s).2.1 (min_max_loc s).2.2)
    (s.w : Int) (s.h : Int) (by exact_mod_cast hw) (by exact_mod_cast hh)
  refine ⟨(AutoGui.clamp_rect (suppressRect tplW tplH f (min_max_loc s).2.1
      (min_max_loc s).2.2) (s.w : Int) (s.h : Int)).x.toNat,
    (AutoGui.clamp_rect (suppressRect tplW tplH f (min_max_loc s).2.1
      (min_max_loc s).2.2) (s.w : Int) (s.h : Int)).y.toNat, ?_, ?_, ?_⟩
  · omega
  · omega
  · show (fillRect s (AutoGui.clamp_rect (suppressRect tplW tplH f
      (min_max_loc s).2.1 (min_max_loc s).2.2) (s.w : Int) (s.h : Int))).data _ _ = 0
    unfold fillRect
    dsimp only
    rw [if_pos p5]

/-! Counting machinery for termination. -/

/-- Pointwise implication of predicates gives `countP` monotonicity. -/
theorem countP_le_countP {α : Type} (l : List α) (p q : α → Bool)
    (h : ∀ a ∈ l, p a = true → q a = true) : l.countP p ≤ l.countP q := by
  induction l with
  | nil => exact le_refl _
  | cons a l ih =>
    rw [List.countP_cons, List.countP_cons]
    have h1 := ih fun b hb => h b (List.mem_cons_of_mem a hb)
    have h2 : (if p a = true then 1 else 0) ≤ (if q a = true then 1 else 0) := by
      split
      · rw [if_pos (h a (List.mem_cons_self a l) (by assumption))]
      · exact Nat.zero_le _
    omega

/-- Pointwise implication plus a separating element gives strict `countP`
decrease. -/
theorem countP_lt_countP {α : Type} (l : List α) (p q : α → Bool)
    (h : ∀ a ∈ l, p a = true → q a = true)
    (a₀ : α) (ha₀ : a₀ ∈ l) (hq : q a₀ = true) (hp : p a₀ = false) :
    l.countP p < l.countP q := by
  induction l with
  | nil => cases ha₀
  | cons a l ih =>
    rw [List.countP_cons, List.countP_cons]
    rcases List.mem_cons.mp ha₀ with h0 | h0
    · subst h0
      have h1 := countP_le_countP l p q fun b hb => h b (List.mem_cons_of_mem a₀ hb)
      rw [hp, hq]
      simp only [Bool.false_eq_true, if_false, if_true]
      omega
    · have h1 := ih (fun b hb => h b (List.mem_cons_of_mem a hb)) h0
      have h2 : (if p a = true then 1 else 0) ≤ (if q a = true then 1 else 0) := by
        split
        · rw [if_pos (h a (List.mem_cons_self a l) (by assumption))]
        · exact Nat.zero_le _
      omega

/-- The cell list of a surface has exactly `h * w` entries. -/
theorem Surface.cellList_length (s : Surface) : s.cellList.length = s.h * s.w := by
  unfold Surface.cellList
  rw [List.length_flatMap]
  have : ∀ y : Nat, ((List.range s.w).map fun x => (x, y)).length = s.w := by
    intro y
    rw [List.length_map, List.length_range]
  calc ((List.range s.h).map fun y => ((List.range s.w).map fun x => (x, y)).length).sum
      = ((List.range s.h).map fun _ => s.w).sum := by
        apply congrArg
        apply List.map_congr_left
        intro y _
        exact this y
    _ = s.h * s.w := by
        rw [List.map_const', List.sum_replicate, List.length_range, smul_eq_mul]

/-- The hot-cell count never exceeds the cell count. -/
theorem hotCount_le (s : Surface) (prec : ℚ) : s.hotCount prec ≤ s.w * s.h := by
  unfold Surface.hotCount
  calc s.cellList.countP _ ≤ s.cellList.length := List.countP_le_length _
    _ = s.h * s.w := s.cellList_length
    _ = s.w * s.h := Nat.mul_comm _ _

/-- A cell list only depends on the dimensions, which `fillRect` keeps. -/
theorem fillRect_cellList (s : Surface) (r : Rect) :
    (fillRect s r).cellList = s.cellList := rfl

/-- When the maximum still meets a positive threshold and the rectangle
arithmetic does not wrap, a suppression step strictly decreases the hot-cell
count. -/
theorem hotCount_step_lt (tplW tplH : Nat) (f : FindImageResultFilter)
    (prec : ℚ) (s : Surface) (L : List FindImageResult)
    (hw : 1 ≤ s.w) (hh : 1 ≤ s.h)
    (hwb : s.w ≤ 2147483648) (hhb : s.h ≤ 2147483648)
    (hxw : tplW + f.x_delta * 2 < 2147483648)
    (hyh : tplH + f.y_delta * 2 < 2147483648) (hp : 0 < prec)
    (hmax : ¬ (min_max_loc s).1 < prec) :
    ((autoGuiStep tplW tplH f (s, L)).1).hotCount prec < s.hotCount prec := by
  obtain ⟨h1, h2, h3⟩ := min_max_loc_spec s hw hh
  unfold Surface.hotCount
  rw [show (autoGuiStep tplW tplH f (s, L)).1.cellList = s.cellList from rfl]
  apply countP_lt_countP
  · intro c _ hc
    by_contra hc'
    have hc'' : ¬ prec ≤ s.data c.1 c.2 := fun h => hc' (decide_eq_true h)
    apply hc''
    have : (autoGuiStep tplW tplH f (s, L)).1.data c.1 c.2 = 0 ∨
        (autoGuiStep tplW tplH f (s, L)).1.data c.1 c.2 = s.data c.1 c.2 := by
      show (fillRect s _).data c.1 c.2 = 0 ∨ (fillRect s _).data c.1 c.2 = s.data c.1 c.2
      unfold fillRect
      dsimp only
      split
      · exact Or.inl rfl
      · exact Or.inr rfl
    rcases this with h | h
    · exfalso
      have := of_decide_eq_true hc
      rw [h] at this
      exact absurd (lt_of_lt_of_le hp this) (lt_irrefl 0)
    · rw [h] at hc
      exact of_decide_eq_true hc
  · exact Surface.mem_cellList.mpr ⟨h1, h2⟩
  · apply decide_eq_true
    rw [h3]
    exact le_of_not_lt hmax
  · apply decide_eq_false
    rw [autoGuiStep_zeroes_max tplW tplH f s L hw hh hwb hhb hxw hyh]
    exact not_le_of_lt hp

/-- If the hot-cell count is zero on a nonempty surface, the maximum is below
the threshold (the loop's break condition holds). -/
theorem max_lt_of_hotCount_zero (s : Surface) (prec : ℚ)
    (hw : 1 ≤ s.w) (hh : 1 ≤ s.h) (h0 : s.hotCount prec = 0) :
    (min_max_loc s).1 < prec := by
  by_contra hmax
  obtain ⟨h1, h2, h3⟩ := min_max_loc_spec s hw hh
  have : 0 < s.hotCount prec := by
    unfold Surface.hotCount
    rw [List.countP_pos_iff]
    refine ⟨(min_max_loc s).2, ?_, ?_⟩
    · exact Surface.mem_cellList.mpr ⟨h1, h2⟩
    · apply decide_eq_true
      rw [h3]
      exact le_of_not_lt hmax
  omega

/-- Core termination argument: with fuel at least the hot-cell count, a
positive threshold, and wrap-free rectangle arithmetic, the suppression loop
reaches its break condition. -/
theorem autoGuiLoop_isSome_of_hot (tplW tplH : Nat) (f : FindImageResultFilter)
    (prec : ℚ)
    (hxw : tplW + f.x_delta * 2 < 2147483648)
    (hyh : tplH + f.y_delta * 2 < 2147483648) (hp : 0 < prec) :
    ∀ (fuel : Nat) (s : Surface) (L : List FindImageResult),
      1 ≤ s.w → 1 ≤ s.h → s.w ≤ 2147483648 → s.h ≤ 2147483648 →
      s.hotCount prec ≤ fuel →
      (autoGuiLoop tplW tplH f prec fuel (s, L)).isSome := by
  intro fuel
  induction fuel with
  | zero =>
    intro s L hw hh hwb hhb hfuel
    have h0 : s.hotCount prec = 0 := Nat.le_zero.mp hfuel
    unfold autoGuiLoop
    rw [if_pos (max_lt_of_hotCount_zero s prec hw hh h0)]
    rfl
  | succ n ih =>
    intro s L hw hh hwb hhb hfuel
    unfold autoGuiLoop
    by_cases hb : (min_max_loc s).1 < prec
    · rw [if_pos hb]; rfl
    · rw [if_neg hb]
      have hlt := hotCount_step_lt tplW tplH f prec s L hw hh hwb hhb hxw hyh hp hb
      exact ih (autoGuiStep tplW tplH f (s, L)).1 (autoGuiStep tplW tplH f (s, L)).2
        hw hh hwb hhb (by omega)

/-! Shape of one suppression step. -/

/-- A step either keeps the accepted list (collision) or appends the current
maximum as a new result. -/
theorem autoGuiStep_snd (tplW tplH : Nat) (f : FindImageResultFilter)
    (s : Surface) (L : List FindImageResult) :
    (autoGuiStep tplW tplH f (s, L)).2 = L ∨
    (autoGuiStep tplW tplH f (s, L)).2 =
      L ++ [⟨(min_max_loc s).2.1, (min_max_loc s).2.2, (min_max_loc s).1⟩] := by
  unfold autoGuiStep
  dsimp only
  split
  · exact Or.inl rfl
  · exact Or.inr rfl

/-- With no accepted result yet, the candidate is always accepted. -/
theorem autoGuiStep_snd_nil (tplW tplH : Nat) (f : FindImageResultFilter)
    (s : Surface) :
    (autoGuiStep tplW tplH f (s, [])).2 =
      [⟨(min_max_loc s).2.1, (min_max_loc s).2.2, (min_max_loc s).1⟩] := rfl

/-- Suppression only zeroes cells, so the new maximum is bounded by the old
one (or by the `0` just written). -/
theorem min_max_loc_step_le (tplW tplH : Nat) (f : FindImageResultFilter)
    (s : Surface) (L : List FindImageResult) (hw : 1 ≤ s.w) (hh : 1 ≤ s.h) :
    (min_max_loc (autoGuiStep tplW tplH f (s, L)).1).1 ≤ max (min_max_loc s).1 0 := by
  obtain ⟨h1, h2, h3⟩ := min_max_loc_spec (autoGuiStep tplW tplH f (s, L)).1 hw hh
  rw [← h3]
  have : (autoGuiStep tplW tplH f (s, L)).1.data
        (min_max_loc (autoGuiStep tplW tplH f (s, L)).1).2.1
        (min_max_loc (autoGuiStep tplW tplH f (s, L)).1).2.2 = 0 ∨
      (autoGuiStep tplW tplH f (s, L)).1.data
        (min_max_loc (autoGuiStep tplW tplH f (s, L)).1).2.1
        (min_max_loc (autoGuiStep tplW tplH f (s, L)).1).2.2 = s.data
        (min_max_loc (autoGuiStep tplW tplH f (s, L)).1).2.1
        (min_max_loc (autoGuiStep tplW tplH f (s, L)).1).2.2 := by
    show (fillRect s _).data _ _ = 0 ∨ (fillRect s _).data _ _ = _
    unfold fillRect
    dsimp only
    split
    · exact Or.inl rfl
    · exact Or.inr rfl
  rcases this with h | h
  · rw [h]; exact le_max_right _ _
  · rw [h]
    exact le_trans (min_max_loc_ge s h1 h2) (le_max_left _ _)

/-! Loop invariants. -/

/-- Every result the loop ever returns meets the threshold and lies inside
the surface. -/
theorem autoGuiLoop_mem (tplW tplH : Nat) (f : FindImageResultFilter) (prec : ℚ) :
    ∀ (fuel : Nat) (s : Surface) (L out : List FindImageResult),
      1 ≤ s.w → 1 ≤ s.h →
      (∀ r ∈ L, prec ≤ r.precision ∧ r.left < s.w ∧ r.top < s.h) →
      autoGuiLoop tplW tplH f prec fuel (s, L) = some out →
      ∀ r ∈ out, prec ≤ r.precision ∧ r.left < s.w ∧ r.top < s.h := by
  intro fuel
  induction fuel with
  | zero =>
    intro s L out hw hh hinv hloop
    unfold autoGuiLoop at hloop
    split at hloop
    · cases hloop; exact hinv
    · simp at hloop
  | succ n ih =>
    intro s L out hw hh hinv hloop
    unfold autoGuiLoop at hloop
    split at hloop
    · cases hloop; exact hinv
    · have hinv' : ∀ r ∈ (autoGuiStep tplW tplH f (s, L)).2,
          prec ≤ r.precision ∧ r.left < s.w ∧ r.top < s.h := by
        rcases autoGuiStep_snd tplW tplH f s L with h | h
        · rw [h]; exact hinv
        · rw [h]
          intro r hr
          rcases List.mem_append.mp hr with hr | hr
          · exact hinv r hr
          · obtain ⟨hx, hy, _⟩ := min_max_loc_spec s hw hh
            rcases List.mem_singleton.mp hr with rfl
            refine ⟨le_of_not_lt (by assumption), hx, hy⟩
      exact ih (autoGuiStep tplW tplH f (s, L)).1 (autoGuiStep tplW tplH f (s, L)).2
        out hw hh hinv' hloop

/-- With a nonpositive threshold, once the surface contains a zero cell the
break condition can never hold, so the loop never returns. -/
theorem autoGuiLoop_none_of_nonpos (tplW tplH : Nat) (f : FindImageResultFilter)
    (prec : ℚ) (hp : prec ≤ 0) :
    ∀ (fuel : Nat) (s : Surface) (L : List FindImageResult),
      1 ≤ s.w → 1 ≤ s.h →
      (∃ x y, x < s.w ∧ y < s.h ∧ s.data x y = 0) →
      autoGuiLoop tplW tplH f prec fuel (s, L) = none := by
  intro fuel
  induction fuel with
  | zero =>
    intro s L hw hh hz
    obtain ⟨x, y, hx, hy, h0⟩ := hz
    have hnb : ¬ (min_max_loc s).1 < prec := by
      intro hlt
      have := min_max_loc_ge s hx hy
      rw [h0] at this
      exact absurd (lt_of_le_of_lt this hlt) (not_lt_of_le hp)
    unfold autoGuiLoop
    rw [if_neg hnb]
  | succ n ih =>
    intro s L hw hh hz
    obtain ⟨x, y, hx, hy, h0⟩ := hz
    have hnb : ¬ (min_max_loc s).1 < prec := by
      intro hlt
      have := min_max_loc_ge s hx hy
      rw [h0] at this
      exact absurd (lt_of_le_of_lt this hlt) (not_lt_of_le hp)
    unfold autoGuiLoop
    rw [if_neg hnb]
    apply ih (autoGuiStep tplW tplH f (s, L)).1 (autoGuiStep tplW tplH f (s, L)).2 hw hh
    exact autoGuiStep_zeroes_some tplW tplH f s L hw hh

/-- With a nonpositive threshold, a terminating run (started on an empty
accepted list) can only terminate immediately, returning no results. -/
theorem autoGuiLoop_empty_of_nonpos (tplW tplH : Nat) (f : FindImageResultFilter)
    (prec : ℚ) (hp : prec ≤ 0) (fuel : Nat) (s : Surface)
    (out : List FindImageResult) (hw : 1 ≤ s.w) (hh : 1 ≤ s.h)
    (h : autoGuiLoop tplW tplH f prec fuel (s, []) = some out) : out = [] := by
  unfold autoGuiLoop at h
  split at h
  · cases h; rfl
  · match fuel, h with
    | Nat.succ n, h =>
      exfalso
      have h' : autoGuiLoop tplW tplH f prec n (autoGuiStep tplW tplH f (s, [])) =
          some out := h
      have hnone := autoGuiLoop_none_of_nonpos tplW tplH f prec hp n
        (autoGuiStep tplW tplH f (s, [])).1 (autoGuiStep tplW tplH f (s, [])).2 hw hh
        (autoGuiStep_zeroes_some tplW tplH f s [] hw hh)
      rw [hnone] at h'
      cases h'

/-- With a positive threshold the loop's accepted list stays sorted by
non-increasing precision: each accepted candidate is the current global
maximum, and maxima only decrease. -/
theorem autoGuiLoop_pairwise_of_pos (tplW tplH : Nat) (f : FindImageResultFilter)
    (prec : ℚ) (hp : 0 < prec) :
    ∀ (fuel : Nat) (s : Surface) (L out : List FindImageResult),
      1 ≤ s.w → 1 ≤ s.h →
      List.Pairwise (fun a b => b.precision ≤ a.precision) L →
      (∀ r ∈ L, (min_max_loc s).1 ≤ r.precision) →
      autoGuiLoop tplW tplH f prec fuel (s, L) = some out →
      List.Pairwise (fun a b => b.precision ≤ a.precision) out := by
  intro fuel
  induction fuel with
  | zero =>
    intro s L out hw hh hsort hub hloop
    unfold autoGuiLoop at hloop
    split at hloop
    · cases hloop; exact hsort
    · simp at hloop
  | succ n ih =>
    intro s L out hw hh hsort hub hloop
    unfold autoGuiLoop at hloop
    split at hloop
    · cases hloop; exact hsort
    · have hmax : prec ≤ (min_max_loc s).1 := le_of_not_lt (by assumption)
      have hmax0 : max (min_max_loc s).1 0 = (min_max_loc s).1 :=
        max_eq_left (le_trans (le_of_lt hp) hmax)
      have hstep := min_max_loc_step_le tplW tplH f s L hw hh
      rw [hmax0] at hstep
      have hsort' : List.Pairwise (fun a b => b.precision ≤ a.precision)
          (autoGuiStep tplW tplH f (s, L)).2 := by
        rcases autoGuiStep_snd tplW tplH f s L with h | h
        · rw [h]; exact hsort
        · rw [h]
          rw [List.pairwise_append]
          refine ⟨hsort, List.pairwise_singleton _ _, ?_⟩
          intro a ha b hb
          rcases List.mem_singleton.mp hb with rfl
          exact hub a ha
      have hub' : ∀ r ∈ (autoGuiStep tplW tplH f (s, L)).2,
          (min_max_loc (autoGuiStep tplW tplH f (s, L)).1).1 ≤ r.precision := by
        rcases autoGuiStep_snd tplW tplH f s L with h | h
        · rw [h]
          intro r hr
          exact le_trans hstep (hub r hr)
        · rw [h]
          intro r hr
          rcases List.mem_append.mp hr with hr | hr
          · exact le_trans hstep (hub r hr)
          · rcases List.mem_singleton.mp hr with rfl
            exact hstep
      exact ih (autoGuiStep tplW tplH f (s, L)).1 (autoGuiStep tplW tplH f (s, L)).2
        out hw hh hsort' hub' hloop

/-! Raster-scan and sort facts for `start_matching`. -/

/-- Inner-row invariant of the raster scan: a threshold/bounds property of
the accumulated list is preserved across one row. -/
theorem matcherScan_inner_mem (surf : Surface) (prec : ℚ)
    (filt : ImageMatchFilter) (y : Nat) (hy : y < surf.h) :
    ∀ (xs : List Nat) (acc : List ImageMatchResult),
      (∀ x ∈ xs, x < surf.w) →
      (∀ r ∈ acc, prec ≤ r.precision ∧ r.left < surf.w ∧ r.top < surf.h) →
      ∀ r ∈ xs.foldl (fun results x =>
          if ImageMatcher.need_filter_any x y results filt then results
          else if surf.data x y < prec then results
          else results ++ [⟨x, y, surf.data x y⟩]) acc,
        prec ≤ r.precision ∧ r.left < surf.w ∧ r.top < surf.h := by
  intro xs
  induction xs with
  | nil => intro acc _ hacc; exact hacc
  | cons x xs ih =>
    intro acc hxs hacc
    rw [List.foldl_cons]
    apply ih _ fun x' hx' => hxs x' (List.mem_cons_of_mem x hx')
    split
    · exact hacc
    · split
      · exact hacc
      · intro r hr
        rcases List.mem_append.mp hr with hr | hr
        · exact hacc r hr
        · rcases List.mem_singleton.mp hr with rfl
          exact ⟨le_of_not_lt (by assumption), hxs x (List.mem_cons_self x xs), hy⟩

/-- Every result produced by the raster scan meets the threshold and lies
inside the surface. -/
theorem matcherScan_mem (surf : Surface) (prec : ℚ) (filt : ImageMatchFilter) :
    ∀ r ∈ matcherScan surf prec filt,
      prec ≤ r.precision ∧ r.left < surf.w ∧ r.top < surf.h := by
  unfold matcherScan
  have main : ∀ (ys : List Nat) (acc : List ImageMatchResult),
      (∀ y ∈ ys, y < surf.h) →
      (∀ r ∈ acc, prec ≤ r.precision ∧ r.left < surf.w ∧ r.top < surf.h) →
      ∀ r ∈ ys.foldl (fun results y => (List.range surf.w).foldl
          (fun results x =>
            if ImageMatcher.need_filter_any x y results filt then results
            else if surf.data x y < prec then results
            else results ++ [⟨x, y, surf.data x y⟩]) results) acc,
        prec ≤ r.precision ∧ r.left < surf.w ∧ r.top < surf.h := by
    intro ys
    induction ys with
    | nil => intro acc _ hacc; exact hacc
    | cons y ys ih =>
      intro acc hys hacc
      rw [List.foldl_cons]
      apply ih _ fun y' hy' => hys y' (List.mem_cons_of_mem y hy')
      exact matcherScan_inner_mem surf prec filt y (hys y (List.mem_cons_self y ys))
        (List.range surf.w) acc (fun x hx => List.mem_range.mp hx) hacc
  exact main (List.range surf.h) [] (fun y hy => List.mem_range.mp hy)
    fun r hr => absurd hr (List.not_mem_nil r)

/-- The final sort orders results by non-increasing precision. -/
theorem sort_results_pairwise (l : List ImageMatchResult) :
    List.Pairwise (fun a b => b.precision ≤ a.precision)
      (ImageMatcher.sort_results l) := by
  haveI : IsTotal ImageMatchResult (fun a b => b.precision ≤ a.precision) :=
    ⟨fun a b => le_total b.precision a.precision⟩
  haveI : IsTrans ImageMatchResult (fun a b => b.precision ≤ a.precision) :=
    ⟨fun _ _ _ h1 h2 => le_trans h2 h1⟩
  exact List.sorted_insertionSort _ l

/-- Sorting changes no memberships. -/
theorem mem_sort_results {r : ImageMatchResult} {l : List ImageMatchResult} :
    r ∈ ImageMatcher.sort_results l ↔ r ∈ l :=
  (List.perm_insertionSort _ l).mem_iff

/-! Inversion of the two top-level operations on their success paths. -/

/-- What a successful `start_matching` call must look like: the crop and the
primitive both succeeded, the reported dimensions are those of the region if
one was supplied and of the target otherwise, and the list is the sorted
raster scan of the returned surface. -/
theorem start_matching_ok_inv (cor : Img → Img → Except String Surface)
    (gray : Img → Nat → Nat → ℚ) (m : ImageMatcher) (tgt : Img) (prec : ℚ)
    (reg : Option ImageMatchRegion) (filt : Option ImageMatchFilter)
    (res : ImageMatchResults)
    (h : ImageMatcher.start_matching cor gray m tgt prec reg filt = .ok res) :
    ∃ tm surf,
      ImageMatcher.crop_mat tgt reg = .ok tm ∧
      cor (ImageMatcher.gray_mat gray tm m.use_gray) m.template = .ok surf ∧
      res.width = (match reg with | some r => r.width | none => tgt.w) ∧
      res.height = (match reg with | some r => r.height | none => tgt.h) ∧
      res.list = ImageMatcher.sort_results
        (matcherScan surf prec (filt.getD ⟨5, 5⟩)) := by
  unfold ImageMatcher.start_matching at h
  rcases hcrop : ImageMatcher.crop_mat tgt reg with e | tm
  · rw [hcrop] at h
    simp at h
  · rw [hcrop] at h
    dsimp only at h
    rcases hcor : cor (ImageMatcher.gray_mat gray tm m.use_gray) m.template with e | surf
    · rw [hcor] at h
      simp at h
    · rw [hcor] at h
      dsimp only at h
      cases h
      refine ⟨tm, surf, rfl, hcor, ?_, ?_, rfl⟩
      · cases reg <;> rfl
      · cases reg <;> rfl

/-- What a successful `find_image_on_screen` call must look like: the
reported dimensions are always those of the processed (resized) template,
and the list is either empty via the geometric guard or the output of the
suppression loop on the surface the primitive returned. -/
theorem find_image_ok_inv (cor : Img → Img → Except String Surface)
    (prep : Img → Nat → Nat → ℚ) (resample : Img → Nat → Nat → Nat → Nat → ℚ)
    (tpl scr : Img) (prec : ℚ) (reg : Option FindImageRegion)
    (tw : Option Nat) (filt : Option FindImageResultFilter) (fuel : Nat)
    (res : FindImageResults)
    (h : AutoGui.find_image_on_screen cor prep resample tpl scr prec reg tw filt fuel
      = .ok (some res)) :
    res.width = (AutoGui.resize_template resample tpl tw).w ∧
    res.height = (AutoGui.resize_template resample tpl tw).h ∧
    (res.list = [] ∨
      ∃ scr' surf,
        AutoGui.crop_screen scr reg = .ok scr' ∧
        ¬((AutoGui.resize_template resample tpl tw).w > scr'.w ∨
          (AutoGui.resize_template resample tpl tw).h > scr'.h) ∧
        cor (applyPrep prep scr')
          (applyPrep prep (AutoGui.resize_template resample tpl tw)) = .ok surf ∧
        autoGuiLoop (AutoGui.resize_template resample tpl tw).w
          (AutoGui.resize_template resample tpl tw).h (filt.getD ⟨5, 5⟩) prec fuel
          (surf, []) = some res.list) := by
  unfold AutoGui.find_image_on_screen at h
  rcases hcrop : AutoGui.crop_screen scr reg with e | scr'
  · rw [hcrop] at h
    simp at h
  · rw [hcrop] at h
    dsimp only at h
    split at h
    · cases h
      exact ⟨rfl, rfl, Or.inl rfl⟩
    · rename_i hguard
      rcases hcor : cor (applyPrep prep scr')
          (applyPrep prep (AutoGui.resize_template resample tpl tw)) with e | surf
      · rw [hcor] at h
        simp at h
      · rw [hcor] at h
        dsimp only at h
        rcases hloop : autoGuiLoop (applyPrep prep (AutoGui.resize_template resample tpl tw)).w
            (applyPrep prep (AutoGui.resize_template resample tpl tw)).h
            (filt.getD ⟨5, 5⟩) prec fuel (surf, []) with _ | list
        · rw [hloop] at h
          simp at h
        · rw [hloop] at h
          dsimp only at h
          cases h
          exact ⟨rfl, rfl, Or.inr ⟨scr', surf, rfl, hguard, hcor, hloop⟩⟩

/-! A few more reusable facts. -/

/-- Threshold part of the loop invariant, needing no surface-shape
hypotheses: every result the loop ever returns meets the threshold. -/
theorem autoGuiLoop_mem_prec (tplW tplH : Nat) (f : FindImageResultFilter)
    (prec : ℚ) :
    ∀ (fuel : Nat) (s : Surface) (L out : List FindImageResult),
      (∀ r ∈ L, prec ≤ r.precision) →
      autoGuiLoop tplW tplH f prec fuel (s, L) = some out →
      ∀ r ∈ out, prec ≤ r.precision := by
  intro fuel
  induction fuel with
  | zero =>
    intro s L out hinv hloop
    unfold autoGuiLoop at hloop
    split at hloop
    · cases hloop; exact hinv
    · simp at hloop
  | succ n ih =>
    intro s L out hinv hloop
    unfold autoGuiLoop at hloop
    split at hloop
    · cases hloop; exact hinv
    · have hinv' : ∀ r ∈ (autoGuiStep tplW tplH f (s, L)).2, prec ≤ r.precision := by
        rcases autoGuiStep_snd tplW tplH f s L with h | h
        · rw [h]; exact hinv
        · rw [h]
          intro r hr
          rcases List.mem_append.mp hr with hr | hr
          · exact hinv r hr
          · rcases List.mem_singleton.mp hr with rfl
            exact le_of_not_lt (by assumption)
      exact ih (autoGuiStep tplW tplH f (s, L)).1 (autoGuiStep tplW tplH f (s, L)).2
        out hinv' hloop

/-- `gray_mat` preserves the width (identity or a dimension-preserving
content transform). -/
theorem gray_mat_w (gray : Img → Nat → Nat → ℚ) (mat : Img) (b : Bool) :
    (ImageMatcher.gray_mat gray mat b).w = mat.w := by
  unfold ImageMatcher.gray_mat
  split <;> rfl

/-- `gray_mat` preserves the height. -/
theorem gray_mat_h (gray : Img → Nat → Nat → ℚ) (mat : Img) (b : Bool) :
    (ImageMatcher.gray_mat gray mat b).h = mat.h := by
  unfold ImageMatcher.gray_mat
  split <;> rfl

/-! Claim theorems. -/

/-- C1 counterexample: `ImageMatcher::start_matching` has no geometric
guard.  With the 2×2 template and the 1×1 target (processed template wider
and taller than the processed target) it still invokes the correlation
primitive and propagates the primitive's failure, instead of returning a
successful empty result carrying the template's dimensions. -/
theorem C1_counterexample :
    ImageMatcher.start_matching corFail prepId m22 tgt11 1 none none
      = .error "matchTemplate size assertion" ∧
    m22.template.w > tgt11.w ∧ m22.template.h > tgt11.h :=
  ⟨rfl, by decide, by decide⟩

/-- C1 (amended): in `AutoGui::find_image_on_screen`, whenever the processed
(resized) template exceeds the screen in width or height, the call returns a
successful result whose list is empty and whose reported width/height are
the processed template's dimensions — and this holds for every correlation
primitive `cor`, so the primitive is never invoked. -/
theorem C1_find_image_geometric_guard
    (cor : Img → Img → Except String Surface) (prep : Img → Nat → Nat → ℚ)
    (resample : Img → Nat → Nat → Nat → Nat → ℚ) (tpl scr : Img) (prec : ℚ)
    (tw : Option Nat) (filt : Option FindImageResultFilter) (fuel : Nat)
    (hguard : (AutoGui.resize_template resample tpl tw).w > scr.w ∨
      (AutoGui.resize_template resample tpl tw).h > scr.h) :
    AutoGui.find_image_on_screen cor prep resample tpl scr prec none tw filt fuel
      = .ok (some ⟨(AutoGui.resize_template resample tpl tw).w,
        (AutoGui.resize_template resample tpl tw).h, []⟩) := by
  unfold AutoGui.find_image_on_screen AutoGui.crop_screen
  dsimp only
  simp only [applyPrep]
  rw [if_pos hguard]

/-- C1 witness: concrete run of the guard theorem on the 2×2 template and
1×1 screen. -/
theorem C1_find_image_geometric_guard_witness :
    ((2 : Nat) > 1 ∨ (2 : Nat) > 1) ∧
    AutoGui.find_image_on_screen corContractZero prepId resampleZero tpl22 tgt11
      1 none none none 0 = .ok (some ⟨2, 2, []⟩) :=
  ⟨Or.inl (by decide),
    C1_find_image_geometric_guard corContractZero prepId resampleZero tpl22 tgt11
      1 none none 0 (Or.inl (by decide))⟩

/-- C2 counterexample: on the 1×1 all-zero surface with precision threshold
`0`, the peak-extraction loop does not reach its break condition within the
surface's cell count (`1*1`) of iterations — the suppression writes `0` over
a cell that is already `0`, so the maximum never drops below the threshold
and the loop runs forever. -/
theorem C2_counterexample :
    autoGuiLoop 1 1 ⟨5, 5⟩ 0 (1 * 1) (⟨1, 1, fun _ _ => 0⟩, []) = none := rfl

/-- C2 (amended): for every correlation surface (of `i32`-representable
dimensions) and every precision threshold `> 0`, provided the suppression
rectangle arithmetic does not wrap — `template + 2·delta < 2^31` on both
axes, true in particular for the default deltas `(5,5)` — the
peak-extraction loop terminates, reaching its break condition within at most
`w * h` (the surface's cell count) suppression iterations. -/
theorem C2_loop_terminates_within_cell_count
    (tplW tplH : Nat) (f : FindImageResultFilter) (prec : ℚ) (s : Surface)
    (hw : 1 ≤ s.w) (hh : 1 ≤ s.h)
    (hwb : s.w ≤ 2147483648) (hhb : s.h ≤ 2147483648)
    (hxw : tplW + f.x_delta * 2 < 2147483648)
    (hyh : tplH + f.y_delta * 2 < 2147483648) (hp : 0 < prec) :
    (autoGuiLoop tplW tplH f prec (s.w * s.h) (s, [])).isSome :=
  autoGuiLoop_isSome_of_hot tplW tplH f prec hxw hyh hp (s.w * s.h) s [] hw hh
    hwb hhb (hotCount_le s prec)

/-- C2 witness: concrete run on a 2×2 surface of score 2 with threshold 1
and the default filter deltas. -/
theorem C2_loop_terminates_within_cell_count_witness :
    (1 : Nat) ≤ 2 ∧ (0 : ℚ) < 1 ∧ (1 + 5 * 2 : Nat) < 2147483648 ∧
    (autoGuiLoop 1 1 ⟨5, 5⟩ 1 (2 * 2) (⟨2, 2, fun _ _ => 2⟩, [])).isSome :=
  ⟨by decide, by decide, by decide,
    C2_loop_terminates_within_cell_count 1 1 ⟨5, 5⟩ 1 ⟨2, 2, fun _ _ => 2⟩
      (by decide) (by decide) (by decide) (by decide) (by decide) (by decide)
      (by decide)⟩

set_option maxRecDepth 8192 in
/-- Validation of the wrapping model, showing the no-wrap hypotheses of the
termination bound are necessary: with `x_delta = y_delta = 2^30` the
suppression width `1 + 2^31` wraps to a negative `i32`, the clamp turns it
into a single-cell rectangle at column 0, and the second peak at column 5 is
never suppressed — the candidate there keeps colliding with the accepted
result, so even at the positive threshold 1 the loop does not reach its
break condition within the surface's cell count (`10 * 1`) of iterations. -/
theorem autoGuiLoop_diverges_on_wrapped_delta :
    autoGuiLoop 1 1 ⟨1073741824, 1073741824⟩ 1 (10 * 1) (surfTwoPeaks, []) = none := by
  decide

/-- C3 counterexample: a successful `start_matching` call on the 3×2 target
with the 1×1 template reports width 3 and height 2 — the target's
dimensions, not the template's 1×1. -/
theorem C3_counterexample :
    ImageMatcher.start_matching corContractZero prepId m11 tgt32 1 none none
      = .ok ⟨3, 2, []⟩ ∧ m11.template.w = 1 ∧ m11.template.h = 1 :=
  ⟨rfl, rfl, rfl⟩

/-- C3 (amended): for every successful call, `find_image_on_screen` reports
the processed (possibly resized) template's dimensions, while
`start_matching` instead reports the region's dimensions when a region is
supplied and the target's dimensions otherwise. -/
theorem C3_reported_dims
    (cor : Img → Img → Except String Surface) (prep : Img → Nat → Nat → ℚ)
    (resample : Img → Nat → Nat → Nat → Nat → ℚ) (tpl scr : Img) (prec : ℚ)
    (reg : Option FindImageRegion) (tw : Option Nat)
    (filt : Option FindImageResultFilter) (fuel : Nat) (res1 : FindImageResults)
    (cor2 : Img → Img → Except String Surface) (gray : Img → Nat → Nat → ℚ)
    (m : ImageMatcher) (tgt : Img) (prec2 : ℚ) (reg2 : Option ImageMatchRegion)
    (filt2 : Option ImageMatchFilter) (res2 : ImageMatchResults)
    (h1 : AutoGui.find_image_on_screen cor prep resample tpl scr prec reg tw filt
      fuel = .ok (some res1))
    (h2 : ImageMatcher.start_matching cor2 gray m tgt prec2 reg2 filt2 = .ok res2) :
    (res1.width = (AutoGui.resize_template resample tpl tw).w ∧
     res1.height = (AutoGui.resize_template resample tpl tw).h) ∧
    (res2.width = (match reg2 with | some r => r.width | none => tgt.w) ∧
     res2.height = (match reg2 with | some r => r.height | none => tgt.h)) := by
  obtain ⟨hw1, hh1, _⟩ := find_image_ok_inv cor prep resample tpl scr prec reg tw
    filt fuel res1 h1
  obtain ⟨tm, surf, _, _, hw2, hh2, _⟩ := start_matching_ok_inv cor2 gray m tgt
    prec2 reg2 filt2 res2 h2
  exact ⟨⟨hw1, hh1⟩, hw2, hh2⟩

/-- C3 witness: concrete successful runs of both operations. -/
theorem C3_reported_dims_witness :
    (((1 : Nat) = 1 ∧ (1 : Nat) = 1) ∧ ((2 : Nat) = 2 ∧ (1 : Nat) = 1)) :=
  C3_reported_dims corContractZero prepId resampleZero tpl11 tgt32 1 none none
    none 0 ⟨1, 1, []⟩ corContractZero prepId m11 tgt21 1 none none ⟨2, 1, []⟩
    rfl rfl

/-- C4: `ImageMatcher::new` with template 100×50 and requested width 200
records height `w * h / w = 50`, the unchanged original height, whereas the
aspect-ratio-preserving height demanded by the claim is
`round(50 * 200 / 100) = 100` — which is exactly what the resize path of
`find_image_on_screen` computes. -/
theorem C4_matcher_resize_height_bug :
    ImageMatcher.new_dims 100 50 (some 200) = (200, 50) ∧
    rustRound ((50 : ℚ) * 200 / 100) = 100 ∧
    (AutoGui.resize_template resampleZero ⟨100, 50, fun _ _ => 0⟩ (some 200)).h
      = 100 := by
  refine ⟨rfl, ?_, ?_⟩
  · norm_num [rustRound]
  · show (rustRound ((50 : ℚ) * ((200 : ℚ) / (100 : ℚ)))).toNat = 100
    have h : rustRound ((50 : ℚ) * ((200 : ℚ) / (100 : ℚ))) = 100 := by
      norm_num [rustRound]
    rw [h]
    rfl

/-- C5: at candidate `(0,0)` against accepted result `(0,0)` with deltas
`(5,5)` — where `|0-0| ≤ 5` holds on both axes, so the claim demands a
collision — `ImageMatchFilter::need_filter` returns `false`: the `u32`
subtraction `left - x_delta` underflows and wraps to `2^32 - 5` (release
mode; a debug build panics here).  Its twin `FindImageResultFilter::need_filter`
in auto_gui.rs uses `saturating_sub` and correctly returns `true` on the
same input. -/
theorem C5_matcher_filter_bug :
    ImageMatchFilter.need_filter ⟨5, 5⟩ 0 0 ⟨0, 0, 1⟩ = false ∧
    FindImageResultFilter.need_filter ⟨5, 5⟩ ⟨0, 0, 1⟩ (0, 0, 1) = true ∧
    ((0 : Int) - 0).natAbs ≤ 5 :=
  ⟨rfl, rfl, by decide⟩

/-- C6: for every successful match call, every returned result's precision
meets the caller's threshold — in `find_image_on_screen` because a candidate
is only accepted while `max_val ≥ precision`, and in `start_matching`
because the scan skips every cell scoring below the threshold. -/
theorem C6_precision_threshold_respected
    (cor : Img → Img → Except String Surface) (prep : Img → Nat → Nat → ℚ)
    (resample : Img → Nat → Nat → Nat → Nat → ℚ) (tpl scr : Img) (prec : ℚ)
    (reg : Option FindImageRegion) (tw : Option Nat)
    (filt : Option FindImageResultFilter) (fuel : Nat) (res1 : FindImageResults)
    (cor2 : Img → Img → Except String Surface) (gray : Img → Nat → Nat → ℚ)
    (m : ImageMatcher) (tgt : Img) (prec2 : ℚ) (reg2 : Option ImageMatchRegion)
    (filt2 : Option ImageMatchFilter) (res2 : ImageMatchResults)
    (h1 : AutoGui.find_image_on_screen cor prep resample tpl scr prec reg tw filt
      fuel = .ok (some res1))
    (h2 : ImageMatcher.start_matching cor2 gray m tgt prec2 reg2 filt2 = .ok res2) :
    (∀ r ∈ res1.list, prec ≤ r.precision) ∧
    (∀ r ∈ res2.list, prec2 ≤ r.precision) := by
  constructor
  · obtain ⟨_, _, hcase⟩ := find_image_ok_inv cor prep resample tpl scr prec reg
      tw filt fuel res1 h1
    rcases hcase with hnil | ⟨scr', surf, _, _, _, hloop⟩
    · rw [hnil]; intro r hr; cases hr
    · exact autoGuiLoop_mem_prec _ _ _ prec fuel surf [] res1.list
        (fun r hr => absurd hr (List.not_mem_nil r)) hloop
  · obtain ⟨tm, surf, _, _, _, _, hlist⟩ := start_matching_ok_inv cor2 gray m tgt
      prec2 reg2 filt2 res2 h2
    intro r hr
    rw [hlist] at hr
    exact (matcherScan_mem surf prec2 _ r (mem_sort_results.mp hr)).1

/-- C6 witness: concrete successful runs of both operations with nonempty
result lists. -/
theorem C6_precision_threshold_respected_witness :
    (∀ r ∈ ([⟨0, 0, 3⟩] : List FindImageResult), (1 : ℚ) ≤ r.precision) ∧
    (∀ r ∈ ([⟨0, 0, 1⟩, ⟨1, 0, 1⟩] : List ImageMatchResult), (1 : ℚ) ≤ r.precision) :=
  C6_precision_threshold_respected corPeaks prepId resampleZero tpl11 tgt31 1
    none none none 1 ⟨1, 1, [⟨0, 0, 3⟩]⟩ corOnes prepId m11 tgt21 1 none none
    ⟨2, 1, [⟨0, 0, 1⟩, ⟨1, 0, 1⟩]⟩ rfl rfl

/-- C7: supplying a region is exactly equivalent to cropping the target
first and supplying no region, in both implementations: result coordinates
are relative to the cropped sub-buffer's origin and the region's (left, top)
offset is never added back. -/
theorem C7_region_relative_coordinates
    (cor : Img → Img → Except String Surface) (prep : Img → Nat → Nat → ℚ)
    (resample : Img → Nat → Nat → Nat → Nat → ℚ) (tpl scr : Img) (prec : ℚ)
    (tw : Option Nat) (filt : Option FindImageResultFilter) (fuel : Nat)
    (R : FindImageRegion)
    (cor2 : Img → Img → Except String Surface) (gray : Img → Nat → Nat → ℚ)
    (m : ImageMatcher) (tgt : Img) (prec2 : ℚ) (filt2 : Option ImageMatchFilter)
    (R2 : ImageMatchRegion)
    (h1 : R.left + R.width ≤ scr.w ∧ R.top + R.height ≤ scr.h)
    (h2 : R2.left + R2.width ≤ tgt.w ∧ R2.top + R2.height ≤ tgt.h) :
    AutoGui.find_image_on_screen cor prep resample tpl scr prec (some R) tw filt
        fuel =
      AutoGui.find_image_on_screen cor prep resample tpl
        (cropImg scr R.left R.top R.width R.height) prec none tw filt fuel ∧
    ImageMatcher.start_matching cor2 gray m tgt prec2 (some R2) filt2 =
      ImageMatcher.start_matching cor2 gray m
        (cropImg tgt R2.left R2.top R2.width R2.height) prec2 none filt2 := by
  constructor
  · unfold AutoGui.find_image_on_screen AutoGui.crop_screen
    dsimp only
    rw [if_pos h1]
  · unfold ImageMatcher.start_matching ImageMatcher.crop_mat
    dsimp only
    rw [if_pos h2]
    rfl

/-- C7 witness: concrete 6×6 target, concrete regions inside it. -/
theorem C7_region_relative_coordinates_witness :
    (AutoGui.find_image_on_screen corContractZero prepId resampleZero tpl11 tgt66
        1 (some ⟨2, 3, 3, 2⟩) none none 0 =
      AutoGui.find_image_on_screen corContractZero prepId resampleZero tpl11
        (cropImg tgt66 2 3 3 2) 1 none none none 0) ∧
    (ImageMatcher.start_matching corContractZero prepId m11 tgt66 1
        (some ⟨1, 1, 2, 2⟩) none =
      ImageMatcher.start_matching corContractZero prepId m11
        (cropImg tgt66 1 1 2 2) 1 none none) :=
  C7_region_relative_coordinates corContractZero prepId resampleZero tpl11 tgt66
    1 none none 0 ⟨2, 3, 3, 2⟩ corContractZero prepId m11 tgt66 1 none
    ⟨1, 1, 2, 2⟩ (by decide) (by decide)

/-- C8: for every successful match call the returned list is ordered by
non-increasing precision — in `find_image_on_screen` because each accepted
candidate is the current global maximum of a surface whose maxima only
decrease (assuming the primitive honours its dimension contract), and in
`start_matching` because of the final descending sort. -/
theorem C8_results_sorted_descending
    (cor : Img → Img → Except String Surface) (prep : Img → Nat → Nat → ℚ)
    (resample : Img → Nat → Nat → Nat → Nat → ℚ) (tpl scr : Img) (prec : ℚ)
    (reg : Option FindImageRegion) (tw : Option Nat)
    (filt : Option FindImageResultFilter) (fuel : Nat) (res1 : FindImageResults)
    (cor2 : Img → Img → Except String Surface) (gray : Img → Nat → Nat → ℚ)
    (m : ImageMatcher) (tgt : Img) (prec2 : ℚ) (reg2 : Option ImageMatchRegion)
    (filt2 : Option ImageMatchFilter) (res2 : ImageMatchResults)
    (h0 : ∀ a b surf, cor a b = .ok surf →
      surf.w = a.w - b.w + 1 ∧ surf.h = a.h - b.h + 1)
    (h1 : AutoGui.find_image_on_screen cor prep resample tpl scr prec reg tw filt
      fuel = .ok (some res1))
    (h2 : ImageMatcher.start_matching cor2 gray m tgt prec2 reg2 filt2 = .ok res2) :
    List.Pairwise (fun a b : FindImageResult => b.precision ≤ a.precision)
      res1.list ∧
    List.Pairwise (fun a b : ImageMatchResult => b.precision ≤ a.precision)
      res2.list := by
  constructor
  · obtain ⟨_, _, hcase⟩ := find_image_ok_inv cor prep resample tpl scr prec reg
      tw filt fuel res1 h1
    rcases hcase with hnil | ⟨scr', surf, _, _, hcor, hloop⟩
    · rw [hnil]; exact List.Pairwise.nil
    · obtain ⟨hsw, hsh⟩ := h0 _ _ _ hcor
      have hw : 1 ≤ surf.w := by rw [hsw]; omega
      have hh : 1 ≤ surf.h := by rw [hsh]; omega
      rcases le_or_lt prec 0 with hp | hp
      · rw [autoGuiLoop_empty_of_nonpos _ _ _ prec hp fuel surf res1.list hw hh
          hloop]
        exact List.Pairwise.nil
      · exact autoGuiLoop_pairwise_of_pos _ _ _ prec hp fuel surf [] res1.list hw
          hh List.Pairwise.nil (fun r hr => absurd hr (List.not_mem_nil r)) hloop
  · obtain ⟨tm, surf, _, _, _, _, hlist⟩ := start_matching_ok_inv cor2 gray m tgt
      prec2 reg2 filt2 res2 h2
    rw [hlist]
    exact sort_results_pairwise _

/-- C8 witness: concrete runs — the scan of `corAsc` discovers results in
ascending score order and the final sort reverses them. -/
theorem C8_results_sorted_descending_witness :
    List.Pairwise (fun a b : FindImageResult => b.precision ≤ a.precision)
      [⟨0, 0, 3⟩] ∧
    List.Pairwise (fun a b : ImageMatchResult => b.precision ≤ a.precision)
      [⟨1, 0, 3⟩, ⟨0, 0, 2⟩] :=
  C8_results_sorted_descending corPeaks prepId resampleZero tpl11 tgt31 1 none
    none none 1 ⟨1, 1, [⟨0, 0, 3⟩]⟩ corAsc prepId m11 tgt21 1 none none
    ⟨2, 1, [⟨1, 0, 3⟩, ⟨0, 0, 2⟩]⟩
    (by intro a b surf h; cases h; exact ⟨rfl, rfl⟩) rfl rfl

/-- C9: on a uniform surface of score 1 (template 1×1, target 2×1, threshold
1, default filter deltas (5,5)) `start_matching` returns the two results
`(0,0)` and `(1,0)`, which collide under the claimed rule — they differ by
1 ≤ 5 on the x axis and 0 ≤ 5 on the y axis — because the accepted result at
`left = 0 < x_delta` makes `ImageMatchFilter::need_filter` underflow and
report no collision. -/
theorem C9_matcher_collision_bug :
    ImageMatcher.start_matching corOnes prepId m11 tgt21 1 none none
      = .ok ⟨2, 1, [⟨0, 0, 1⟩, ⟨1, 0, 1⟩]⟩ ∧
    ((1 : Int) - 0).natAbs ≤ 5 ∧ ((0 : Int) - 0).natAbs ≤ 5 :=
  ⟨rfl, by decide, by decide⟩

/-- C10: when the correlation primitive honours its dimension contract
(surface of size `(Wt - Wp + 1) × (Ht - Hp + 1)`) and the processed template
fits in the processed target, every returned result of either implementation
satisfies `left ≤ Wt - Wp` and `top ≤ Ht - Hp`, so the matched template
footprint lies inside the searched image. -/
theorem C10_results_within_bounds
    (cor : Img → Img → Except String Surface) (prep : Img → Nat → Nat → ℚ)
    (resample : Img → Nat → Nat → Nat → Nat → ℚ) (tpl scr : Img) (prec : ℚ)
    (tw : Option Nat) (filt : Option FindImageResultFilter) (fuel : Nat)
    (res1 : FindImageResults)
    (cor2 : Img → Img → Except String Surface) (gray : Img → Nat → Nat → ℚ)
    (m : ImageMatcher) (tgt : Img) (prec2 : ℚ) (filt2 : Option ImageMatchFilter)
    (res2 : ImageMatchResults)
    (h0 : ∀ a b surf, cor a b = .ok surf →
      surf.w = a.w - b.w + 1 ∧ surf.h = a.h - b.h + 1)
    (h0' : ∀ a b surf, cor2 a b = .ok surf →
      surf.w = a.w - b.w + 1 ∧ surf.h = a.h - b.h + 1)
    (hW1 : (AutoGui.resize_template resample tpl tw).w ≤ scr.w)
    (hH1 : (AutoGui.resize_template resample tpl tw).h ≤ scr.h)
    (hW2 : m.template.w ≤ tgt.w) (hH2 : m.template.h ≤ tgt.h)
    (h1 : AutoGui.find_image_on_screen cor prep resample tpl scr prec none tw
      filt fuel = .ok (some res1))
    (h2 : ImageMatcher.start_matching cor2 gray m tgt prec2 none filt2 = .ok res2) :
    (∀ r ∈ res1.list,
      r.left ≤ scr.w - (AutoGui.resize_template resample tpl tw).w ∧
      r.top ≤ scr.h - (AutoGui.resize_template resample tpl tw).h) ∧
    (∀ r ∈ res2.list,
      r.left ≤ tgt.w - m.template.w ∧ r.top ≤ tgt.h - m.template.h) := by
  constructor
  · obtain ⟨_, _, hcase⟩ := find_image_ok_inv cor prep resample tpl scr prec none
      tw filt fuel res1 h1
    rcases hcase with hnil | ⟨scr', surf, hcrop, _, hcor, hloop⟩
    · rw [hnil]; intro r hr; cases hr
    · have hscr : scr' = scr := by
        unfold AutoGui.crop_screen at hcrop
        cases hcrop
        rfl
      subst hscr
      obtain ⟨hsw, hsh⟩ := h0 _ _ _ hcor
      simp only [applyPrep] at hsw hsh
      have hw : 1 ≤ surf.w := by omega
      have hh : 1 ≤ surf.h := by omega
      have hmem := autoGuiLoop_mem _ _ _ prec fuel surf [] res1.list hw hh
        (fun r hr => absurd hr (List.not_mem_nil r)) hloop
      intro r hr
      obtain ⟨_, hrw, hrh⟩ := hmem r hr
      exact ⟨by omega, by omega⟩
  · obtain ⟨tm, surf, hcrop, hcor, _, _, hlist⟩ := start_matching_ok_inv cor2
      gray m tgt prec2 none filt2 res2 h2
    have htm : tm = tgt := by
      unfold ImageMatcher.crop_mat at hcrop
      cases hcrop
      rfl
    subst htm
    obtain ⟨hsw, hsh⟩ := h0' _ _ _ hcor
    rw [gray_mat_w] at hsw
    rw [gray_mat_h] at hsh
    intro r hr
    rw [hlist] at hr
    obtain ⟨_, hrw, hrh⟩ := matcherScan_mem surf prec2 _ r (mem_sort_results.mp hr)
    exact ⟨by omega, by omega⟩

/-- C10 witness: concrete runs with nonempty results, both within bounds. -/
theorem C10_results_within_bounds_witness :
    (∀ r ∈ ([⟨0, 0, 3⟩] : List FindImageResult),
      r.left ≤ 3 - 1 ∧ r.top ≤ 1 - 1) ∧
    (∀ r ∈ ([⟨0, 0, 1⟩, ⟨1, 0, 1⟩] : List ImageMatchResult),
      r.left ≤ 2 - 1 ∧ r.top ≤ 1 - 1) :=
  C10_results_within_bounds corPeaks prepId resampleZero tpl11 tgt31 1 none none
    1 ⟨1, 1, [⟨0, 0, 3⟩]⟩ corOnes prepId m11 tgt21 1 none
    ⟨2, 1, [⟨0, 0, 1⟩, ⟨1, 0, 1⟩]⟩
    (by intro a b surf h; cases h; exact ⟨rfl, rfl⟩)
    (by intro a b surf h; cases h; exact ⟨rfl, rfl⟩)
    (by decide) (by decide) (by decide) (by decide) rfl rfl
